import Mathlib

/-!
Verification of the recipe-management REST API (`app/recipe/views.py` and the
behavior specified for its serializers and authentication stack).

The data model: `RefRow` stands for a `Tag` or `Ingredient` row (both models
have exactly the fields `id`, `name`, `user`); `Recipe` carries its scalar
fields, owner, many-to-many id lists and optional image path; `DB` is the
visible database state.  Querysets are modelled as lists of rows, and the SQL
join that Django emits for a filter across a many-to-many relation is modelled
with its row multiplicity (one output row per matching association), so that
`.distinct()` — and its absence — is observable.

Fallible Python code (the `int(...)` conversions in `get_queryset`, which
raise `ValueError` on malformed query parameters) is modelled with `Option`:
`none` is an unhandled exception escaping the view.
-/

/-! ### Python primitives used by the views -/

/-- Strip leading and trailing whitespace, as Python `int(str)` does before
parsing. -/
def stripWs (cs : List Char) : List Char :=
  ((cs.dropWhile Char.isWhitespace).reverse.dropWhile Char.isWhitespace).reverse

/-- Value of a non-empty all-digit character sequence; `none` otherwise. -/
def digitsVal (cs : List Char) : Option Nat :=
  if cs ≠ [] ∧ cs.all Char.isDigit then
    some (cs.foldl (fun n c => 10 * n + (c.toNat - 48)) 0)
  else none

/-- Python `int(s)` on a string: optional sign then decimal digits, with
surrounding whitespace ignored; `none` models the `ValueError` raised on any
other input (such as `int('true')` or `int('a')`). -/
def pyIntChars (cs : List Char) : Option Int :=
  match stripWs cs with
  | '-' :: rest => (digitsVal rest).map (fun n => -(n : Int))
  | '+' :: rest => (digitsVal rest).map (fun n => (n : Int))
  | t => (digitsVal t).map (fun n => (n : Int))

/-- Python `int(s)` for a Lean `String`. -/
def pyInt (s : String) : Option Int :=
  pyIntChars s.toList

/-- Python `s.split(',')`: splitting the empty string yields `[[]]`, matching
`''.split(',') == ['']`. -/
def splitOnComma : List Char → List (List Char)
  | [] => [[]]
  | c :: rest =>
    let r := splitOnComma rest
    if c = ',' then [] :: r
    else
      match r with
      | [] => [[c]]
      | h :: t => (c :: h) :: t

/-- The comprehension `[int(i) for i in tokens]`: fails (raises) as soon as one
token is not an integer literal. -/
def intsOfTokens : List (List Char) → Option (List Int)
  | [] => some []
  | t :: ts =>
    match pyIntChars t, intsOfTokens ts with
    | some n, some ns => some (n :: ns)
    | _, _ => none

/-! ### Data model -/

/-- A `Tag` or `Ingredient` row: both models consist of an id, a `name` and an
owning `user` (the tenant key). -/
structure RefRow where
  id : Int
  name : String
  user : Nat
deriving DecidableEq, Repr

/-- A `Recipe` row: scalar fields, owning `user`, many-to-many associations to
tags and ingredients (stored as id lists, one entry per association row), and
an optional image path. -/
structure Recipe where
  id : Int
  title : String
  time_minutes : Int
  price : Int
  user : Nat
  tags : List Int
  ingredients : List Int
  image : Option String
deriving DecidableEq, Repr

/-- The visible database state. -/
structure DB where
  tags : List RefRow
  ingredients : List RefRow
  recipes : List Recipe
deriving DecidableEq, Repr

/-- An HTTP response with a status code and an optional serialized body. -/
structure Response (α : Type) where
  status : Nat
  body : Option α
deriving DecidableEq, Repr

/-- Ordering used by `order_by('-name')`: name descending. -/
def nameDesc (a b : RefRow) : Prop :=
  b.name ≤ a.name

instance : DecidableRel nameDesc :=
  fun a b => inferInstanceAs (Decidable (b.name ≤ a.name))

instance : IsTotal RefRow nameDesc :=
  ⟨fun a b => le_total b.name a.name⟩

instance : IsTrans RefRow nameDesc :=
  ⟨fun _ _ _ h1 h2 => le_trans h2 h1⟩

/-! ### BaseViewSet (`views.py:11-26`), shared by tags and ingredients -/

namespace BaseViewSet

/-- Parsing of `views.py:19`:
`bool(int(self.request.query_params.get('assigned_only', 0)))`.
An absent parameter defaults to the integer `0` (so `False`); a present
parameter is a string fed to `int`, whose failure (`none`) models the
`ValueError` escaping the view. -/
def parseAssignedOnly : Option String → Option Bool
  | none => some false
  | some s => (pyInt s).map (fun n => decide (n ≠ 0))

/-- Join of `views.py:20`, `queryset.filter(recipe__isnull=False)`: the SQL
join across the many-to-many table emits one row per (row, recipe)
association, so a row referenced by several recipes appears several times. -/
def assignedJoin (rows : List RefRow) (recipes : List Recipe)
    (refs : Recipe → List Int) : List RefRow :=
  rows.flatMap (fun t =>
    (recipes.filter (fun r => (refs r).contains t.id)).map (fun _ => t))

/-- Pure part of `views.py:17-23` once `assigned_only` has been parsed:
optional join, then `.filter(user=self.request.user).order_by('-name')
.distinct()`. -/
def queryset_for (rows : List RefRow) (recipes : List Recipe)
    (refs : Recipe → List Int) (u : Nat) (ao : Bool) : List RefRow :=
  let q := if ao then assignedJoin rows recipes refs else rows
  (((q.filter (fun t => t.user == u)).insertionSort nameDesc)).dedup

/-- `BaseViewSet.get_queryset` (`views.py:17-23`).  `rows` is the class
attribute `queryset` (`Tag.objects.all()` or `Ingredient.objects.all()`),
`refs` selects the reverse many-to-many column joined by
`filter(recipe__isnull=False)`.  `none` is the unhandled `ValueError` from
`int(...)`. -/
def get_queryset (rows : List RefRow) (recipes : List Recipe)
    (refs : Recipe → List Int) (u : Nat) (assigned_only : Option String) :
    Option (List RefRow) :=
  (parseAssignedOnly assigned_only).map (queryset_for rows recipes refs u)

/-- Create on the shared viewset.  Validation is modelled from the spec:
the serializer validates that `name` is non-empty (400 otherwise); on success
`perform_create` (`views.py:25-26`) runs `serializer.save(user=request.user)`,
so the stored owner is the requesting user and any user value in the payload
is ignored. -/
def create (rows : List RefRow) (u : Nat) (name : String)
    (_payload_user : Option Nat) (new_id : Int) :
    Response RefRow × List RefRow :=
  if name = "" then (⟨400, none⟩, rows)
  else
    let row : RefRow := ⟨new_id, name, u⟩
    (⟨201, some row⟩, rows ++ [row])

end BaseViewSet

/-! ### Authentication gate

Modelled from the spec: the viewsets declare `TokenAuthentication` and
`IsAuthenticated` (`views.py:14-15`, `views.py:45-46`); per spec §4.1/§7 an
unauthenticated request is rejected with 401 before any viewset logic runs.
`auth` is the authenticated user, `none` when the request carries no valid
credentials. -/

/-- Wrap a queryset computation as a list endpoint behind the authentication
gate: 401 without a user, otherwise 200 with the queryset, and `none` when the
queryset computation raises. -/
def listEndpoint {α : Type} (auth : Option Nat) (run : Nat → Option (List α)) :
    Option (Response (List α)) :=
  match auth with
  | none => some ⟨401, none⟩
  | some u =>
    match run u with
    | none => none
    | some l => some ⟨200, some l⟩

namespace TagViewSet

/-- `TagViewSet` (`views.py:29-32`): the shared `get_queryset` with
`queryset = Tag.objects.all()`; the reverse relation joined by
`assigned_only` is each recipe's tag list. -/
def get_queryset (db : DB) (u : Nat) (assigned_only : Option String) :
    Option (List RefRow) :=
  BaseViewSet.get_queryset db.tags db.recipes Recipe.tags u assigned_only

/-- Tag list endpoint behind the authentication gate. -/
def list_view (db : DB) (auth : Option Nat) (assigned_only : Option String) :
    Option (Response (List RefRow)) :=
  listEndpoint auth (fun u => get_queryset db u assigned_only)

/-- Tag create endpoint behind the authentication gate. -/
def create_view (db : DB) (auth : Option Nat) (name : String)
    (payload_user : Option Nat) (new_id : Int) : Response RefRow × DB :=
  match auth with
  | none => (⟨401, none⟩, db)
  | some u =>
    let (resp, rows) := BaseViewSet.create db.tags u name payload_user new_id
    (resp, { db with tags := rows })

end TagViewSet

namespace IngredientViewSet

/-- `IngredientViewSet` (`views.py:35-38`): the shared `get_queryset` with
`queryset = Ingredient.objects.all()`. -/
def get_queryset (db : DB) (u : Nat) (assigned_only : Option String) :
    Option (List RefRow) :=
  BaseViewSet.get_queryset db.ingredients db.recipes Recipe.ingredients u
    assigned_only

/-- Ingredient list endpoint behind the authentication gate. -/
def list_view (db : DB) (auth : Option Nat) (assigned_only : Option String) :
    Option (Response (List RefRow)) :=
  listEndpoint auth (fun u => get_queryset db u assigned_only)

/-- Ingredient create endpoint behind the authentication gate. -/
def create_view (db : DB) (auth : Option Nat) (name : String)
    (payload_user : Option Nat) (new_id : Int) : Response RefRow × DB :=
  match auth with
  | none => (⟨401, none⟩, db)
  | some u =>
    let (resp, rows) := BaseViewSet.create db.ingredients u name payload_user
      new_id
    (resp, { db with ingredients := rows })

end IngredientViewSet

/-! ### RecipeViewSet (`views.py:41-85`) -/

namespace RecipeViewSet

/-- `views.py:48-49`: `[int(i) for i in qs.split(',')]`; `none` models the
`ValueError` raised by `int` on a non-integer token. -/
def _params_to_ints (qs : String) : Option (List Int) :=
  intsOfTokens (splitOnComma qs.toList)

/-- Join of `queryset.filter(tags__id__in=...)` (`views.py:57`, and `:60` for
ingredients): the SQL join across the many-to-many table keeps one output row
per matching association, so a recipe with several matching tags appears once
per matching tag; no `distinct()` is applied afterwards. -/
def filterByIds (q : List Recipe) (refs : Recipe → List Int)
    (ids : List Int) : List Recipe :=
  q.flatMap (fun r =>
    ((refs r).filter (fun t => ids.contains t)).map (fun _ => r))

/-- One optional id filter of `get_queryset` (`views.py:55-60`): Python
`if tags:` is false for an absent parameter and for the empty string, so those
leave the queryset unchanged; otherwise the parameter is parsed (possibly
raising) and the join filter applied. -/
def applyIdFilter (p : Option String) (refs : Recipe → List Int)
    (q : List Recipe) : Option (List Recipe) :=
  match p with
  | none => some q
  | some s =>
    if s = "" then some q
    else
      match _params_to_ints s with
      | none => none
      | some ids => some (filterByIds q refs ids)

/-- `RecipeViewSet.get_queryset` (`views.py:51-62`): the tags filter, then the
ingredients filter, then `.filter(user=self.request.user)`; no ordering and no
`distinct()`. -/
def get_queryset (db : DB) (u : Nat) (tags ingredients : Option String) :
    Option (List Recipe) :=
  match applyIdFilter tags Recipe.tags db.recipes with
  | none => none
  | some q1 =>
    match applyIdFilter ingredients Recipe.ingredients q1 with
    | none => none
    | some q2 => some (q2.filter (fun r => r.user == u))

/-- Recipe list endpoint behind the authentication gate. -/
def list_view (db : DB) (auth : Option Nat) (tags ingredients : Option String) :
    Option (Response (List Recipe)) :=
  listEndpoint auth (fun u => get_queryset db u tags ingredients)

/-- A create payload for the writable serializer fields, plus a `user` value
that a client may put in the payload (the serializer does not write it). -/
structure RecipePayload where
  title : String
  time_minutes : Int
  price : Int
  tags : List Int
  ingredients : List Int
  user : Option Nat
deriving DecidableEq, Repr

/-- Recipe create endpoint.  Field validation is modelled from the spec
(standard validation: non-empty title, 400 otherwise); on success
`perform_create` (`views.py:71-72`) runs `serializer.save(user=request.user)`,
so the stored owner is the requesting user regardless of any user value in the
payload, and a new recipe starts without an image. -/
def create_view (db : DB) (auth : Option Nat) (p : RecipePayload)
    (new_id : Int) : Response Recipe × DB :=
  match auth with
  | none => (⟨401, none⟩, db)
  | some u =>
    if p.title = "" then (⟨400, none⟩, db)
    else
      let r : Recipe :=
        ⟨new_id, p.title, p.time_minutes, p.price, u, p.tags, p.ingredients,
          none⟩
      (⟨201, some r⟩, { db with recipes := db.recipes ++ [r] })

/-- An update payload: PUT supplies every writable field, PATCH any subset;
an absent field is `none`.  A `user` value may be present in the payload. -/
structure RecipeUpdatePayload where
  title : Option String
  time_minutes : Option Int
  price : Option Int
  tags : Option (List Int)
  ingredients : Option (List Int)
  user : Option Nat
deriving DecidableEq, Repr

/-- Modelled from the spec (§3: owner "set at creation, immutable"; §4.3):
the serializer's update writes the writable fields — title, time_minutes,
price, tags, ingredients — onto the instance; the owner and image are not
writable through update. -/
def serializer_update (r : Recipe) (p : RecipeUpdatePayload) : Recipe :=
  { r with
    title := p.title.getD r.title
    time_minutes := p.time_minutes.getD r.time_minutes
    price := p.price.getD r.price
    tags := p.tags.getD r.tags
    ingredients := p.ingredients.getD r.ingredients }

/-- DRF `self.get_object()` on a detail route: the object is looked up inside
`get_queryset()` (owner-scoped, no filter parameters on a detail request), so
a cross-tenant or nonexistent id yields `none` (a 404, spec §7). -/
def get_object (db : DB) (u : Nat) (pk : Int) : Option Recipe :=
  match get_queryset db u none none with
  | none => none
  | some q => q.find? (fun r => r.id == pk)

/-- Persist an updated row: the ORM `save()` writes the instance back over the
row with its primary key. -/
def saveRecipe (db : DB) (r' : Recipe) : DB :=
  { db with recipes := db.recipes.map (fun x => if x.id == r'.id then r' else x) }

/-- Recipe update endpoint (PUT with a full payload, PATCH with a partial
one): standard object lookup then serializer update and save. -/
def update_view (db : DB) (auth : Option Nat) (pk : Int)
    (p : RecipeUpdatePayload) : Response Recipe × DB :=
  match auth with
  | none => (⟨401, none⟩, db)
  | some u =>
    match get_object db u pk with
    | none => (⟨404, none⟩, db)
    | some r =>
      let r' := serializer_update r p
      (⟨200, some r'⟩, saveRecipe db r')

/-- An upload payload.  Modelled from the spec: `RecipeImageSerializer`
validates that the payload is a decodable image; decodability is abstracted
into the constructor (`image` decodes, `notImage` does not), the carried
string standing for the raw payload. -/
inductive UploadPayload where
  | image (data : String)
  | notImage (data : String)
deriving DecidableEq, Repr

/-- Storage path a persisted upload receives. -/
def storagePath (data : String) : String :=
  "uploads/recipe/" ++ data

/-- `upload_image` (`views.py:74-85`): object lookup via `get_object`, then
serializer validation; on success the image is saved onto the recipe and the
updated record returned with 200, otherwise 400 with the instance left
unchanged. -/
def upload_image (db : DB) (auth : Option Nat) (pk : Int)
    (p : UploadPayload) : Response Recipe × DB :=
  match auth with
  | none => (⟨401, none⟩, db)
  | some u =>
    match get_object db u pk with
    | none => (⟨404, none⟩, db)
    | some r =>
      match p with
      | .image d =>
        let r' := { r with image := some (storagePath d) }
        (⟨200, some r'⟩, saveRecipe db r')
      | .notImage _ => (⟨400, none⟩, db)

end RecipeViewSet

/-! ### Concrete database used to instantiate the theorems -/

/-- A tag of user 1 referenced by two recipes. -/
def tagVegan : RefRow := ⟨1, "Vegan", 1⟩

/-- A tag of user 1 referenced by one recipe. -/
def tagDessert : RefRow := ⟨2, "Dessert", 1⟩

/-- A tag of user 2 (another tenant). -/
def tagOther : RefRow := ⟨3, "Breakfast", 2⟩

/-- An ingredient of user 1, referenced by one recipe. -/
def ingSalt : RefRow := ⟨4, "Salt", 1⟩

/-- A recipe of user 1 with one tag and one ingredient. -/
def recBorsch : Recipe := ⟨10, "Borsch", 30, 7, 1, [1], [4], none⟩

/-- A recipe of user 1 with two tags. -/
def recRisotto : Recipe := ⟨11, "Risotto", 20, 8, 1, [1, 2], [], none⟩

/-- A small concrete database. -/
def db0 : DB :=
  ⟨[tagVegan, tagDessert, tagOther], [ingSalt], [recBorsch, recRisotto]⟩

/-! ### Queryset lemmas -/

lemma contains_eq_true_iff {l : List Int} {a : Int} :
    l.contains a = true ↔ a ∈ l :=
  List.elem_iff

lemma mem_assignedJoin {rows : List RefRow} {recipes : List Recipe}
    {refs : Recipe → List Int} {t : RefRow} :
    t ∈ BaseViewSet.assignedJoin rows recipes refs ↔
      t ∈ rows ∧ ∃ r ∈ recipes, t.id ∈ refs r := by
  simp only [BaseViewSet.assignedJoin, List.mem_flatMap, List.mem_map,
    List.mem_filter, contains_eq_true_iff]
  aesop

lemma mem_queryset_for {rows : List RefRow} {recipes : List Recipe}
    {refs : Recipe → List Int} {u : Nat} {ao : Bool} {t : RefRow} :
    t ∈ BaseViewSet.queryset_for rows recipes refs u ao ↔
      t ∈ rows ∧ t.user = u ∧ (ao = true → ∃ r ∈ recipes, t.id ∈ refs r) := by
  cases ao
  all_goals simp [BaseViewSet.queryset_for, List.mem_filter, mem_assignedJoin]
  all_goals tauto

lemma nodup_queryset_for {rows : List RefRow} {recipes : List Recipe}
    {refs : Recipe → List Int} {u : Nat} {ao : Bool} :
    (BaseViewSet.queryset_for rows recipes refs u ao).Nodup :=
  List.nodup_dedup _

lemma sorted_queryset_for {rows : List RefRow} {recipes : List Recipe}
    {refs : Recipe → List Int} {u : Nat} {ao : Bool} :
    List.Sorted nameDesc (BaseViewSet.queryset_for rows recipes refs u ao) :=
  List.Pairwise.sublist (List.dedup_sublist _)
    (List.sorted_insertionSort nameDesc _)

lemma base_get_queryset_eq {rows : List RefRow} {recipes : List Recipe}
    {refs : Recipe → List Int} {u : Nat} {p : Option String} {ao : Bool}
    (hp : BaseViewSet.parseAssignedOnly p = some ao) :
    BaseViewSet.get_queryset rows recipes refs u p =
      some (BaseViewSet.queryset_for rows recipes refs u ao) := by
  simp [BaseViewSet.get_queryset, hp]

lemma base_get_queryset_some {rows : List RefRow} {recipes : List Recipe}
    {refs : Recipe → List Int} {u : Nat} {p : Option String}
    {l : List RefRow}
    (h : BaseViewSet.get_queryset rows recipes refs u p = some l) :
    ∃ ao, BaseViewSet.parseAssignedOnly p = some ao ∧
      l = BaseViewSet.queryset_for rows recipes refs u ao := by
  rcases Option.map_eq_some'.1 h with ⟨ao, hao, hl⟩
  exact ⟨ao, hao, hl.symm⟩

lemma mem_filterByIds {q : List Recipe} {refs : Recipe → List Int}
    {ids : List Int} {r : Recipe} :
    r ∈ RecipeViewSet.filterByIds q refs ids ↔
      r ∈ q ∧ ∃ t ∈ refs r, t ∈ ids := by
  simp only [RecipeViewSet.filterByIds, List.mem_flatMap, List.mem_map,
    List.mem_filter, contains_eq_true_iff]
  constructor
  · rintro ⟨a, ha, x, ⟨hx, hc⟩, rfl⟩
    exact ⟨ha, x, hx, hc⟩
  · rintro ⟨hq, t, ht, hi⟩
    exact ⟨r, hq, t, ⟨⟨ht, hi⟩, rfl⟩⟩

lemma count_filterByIds (q : List Recipe) (refs : Recipe → List Int)
    (ids : List Int) (r : Recipe) :
    (RecipeViewSet.filterByIds q refs ids).count r =
      q.count r * ((refs r).filter (fun t => ids.contains t)).length := by
  induction q with
  | nil => simp [RecipeViewSet.filterByIds]
  | cons x q ih =>
    have hsplit : RecipeViewSet.filterByIds (x :: q) refs ids =
        ((refs x).filter (fun t => ids.contains t)).map (fun _ => x) ++
          RecipeViewSet.filterByIds q refs ids := by
      simp [RecipeViewSet.filterByIds]
    rw [hsplit, List.count_append, ih, List.map_const', List.count_replicate,
      List.count_cons]
    by_cases hx : x = r
    · subst hx
      simp only [beq_self_eq_true, if_pos]
      rw [Nat.add_mul, Nat.one_mul]
      omega
    · simp [hx, beq_iff_eq]

lemma applyIdFilter_sub {p : Option String} {refs : Recipe → List Int}
    {q q' : List Recipe}
    (h : RecipeViewSet.applyIdFilter p refs q = some q') :
    ∀ r ∈ q', r ∈ q := by
  cases p with
  | none =>
    simp only [RecipeViewSet.applyIdFilter] at h
    cases h
    exact fun r hr => hr
  | some s =>
    simp only [RecipeViewSet.applyIdFilter] at h
    by_cases hs : s = ""
    · rw [if_pos hs] at h
      cases h
      exact fun r hr => hr
    · rw [if_neg hs] at h
      cases hids : RecipeViewSet._params_to_ints s with
      | none => rw [hids] at h; cases h
      | some ids =>
        rw [hids] at h
        cases h
        exact fun r hr => (mem_filterByIds.1 hr).1

lemma applyIdFilter_param {s : String} {refs : Recipe → List Int}
    {q : List Recipe} {ids : List Int} (hs : s ≠ "")
    (hids : RecipeViewSet._params_to_ints s = some ids) :
    RecipeViewSet.applyIdFilter (some s) refs q =
      some (RecipeViewSet.filterByIds q refs ids) := by
  simp [RecipeViewSet.applyIdFilter, hs, hids]

lemma recipe_get_queryset_some {db : DB} {u : Nat}
    {tp ip : Option String} {l : List Recipe}
    (h : RecipeViewSet.get_queryset db u tp ip = some l) :
    ∀ r ∈ l, r ∈ db.recipes ∧ r.user = u := by
  unfold RecipeViewSet.get_queryset at h
  split at h
  · cases h
  · next q1 h1 =>
    split at h
    · cases h
    · next q2 h2 =>
      cases h
      intro r hr
      rw [List.mem_filter, beq_iff_eq] at hr
      exact ⟨applyIdFilter_sub h1 r (applyIdFilter_sub h2 r hr.1), hr.2⟩

lemma applyIdFilter_none (refs : Recipe → List Int) (q : List Recipe) :
    RecipeViewSet.applyIdFilter none refs q = some q :=
  rfl

lemma applyIdFilter_raises {s : String} {refs : Recipe → List Int}
    {q : List Recipe} (hs : s ≠ "")
    (hnone : RecipeViewSet._params_to_ints s = none) :
    RecipeViewSet.applyIdFilter (some s) refs q = none := by
  simp [RecipeViewSet.applyIdFilter, hs, hnone]

/-! ### Claims -/

/-- C1: for every authenticated user `u`, each list endpoint (tags,
ingredients, recipes) returns only records owned by `u`; when every record of
a kind belongs to other tenants, a well-formed request yields an empty result
set, not an error. -/
theorem C1_owner_scoped_listing (db : DB) (u : Nat) :
    (∀ p l, TagViewSet.get_queryset db u p = some l → ∀ t ∈ l, t.user = u) ∧
    (∀ p l, IngredientViewSet.get_queryset db u p = some l →
      ∀ t ∈ l, t.user = u) ∧
    (∀ tp ip l, RecipeViewSet.get_queryset db u tp ip = some l →
      ∀ r ∈ l, r.user = u) ∧
    ((∀ t ∈ db.tags, t.user ≠ u) → ∀ p ao,
      BaseViewSet.parseAssignedOnly p = some ao →
      TagViewSet.get_queryset db u p = some []) ∧
    ((∀ t ∈ db.ingredients, t.user ≠ u) → ∀ p ao,
      BaseViewSet.parseAssignedOnly p = some ao →
      IngredientViewSet.get_queryset db u p = some []) ∧
    ((∀ r ∈ db.recipes, r.user ≠ u) →
      RecipeViewSet.get_queryset db u none none = some [] ∧
      ∀ tp ip l, RecipeViewSet.get_queryset db u tp ip = some l → l = []) := by
  refine ⟨?_, ?_, ?_, ?_, ?_, ?_⟩
  · intro p l h t ht
    obtain ⟨ao, hao, rfl⟩ := base_get_queryset_some h
    exact (mem_queryset_for.1 ht).2.1
  · intro p l h t ht
    obtain ⟨ao, hao, rfl⟩ := base_get_queryset_some h
    exact (mem_queryset_for.1 ht).2.1
  · intro tp ip l h r hr
    exact (recipe_get_queryset_some h r hr).2
  · intro hforeign p ao hao
    have hnil : BaseViewSet.queryset_for db.tags db.recipes Recipe.tags u ao
        = [] :=
      List.eq_nil_iff_forall_not_mem.mpr (fun t ht =>
        hforeign t (mem_queryset_for.1 ht).1 (mem_queryset_for.1 ht).2.1)
    rw [show TagViewSet.get_queryset db u p =
      BaseViewSet.get_queryset db.tags db.recipes Recipe.tags u p from rfl,
      base_get_queryset_eq hao, hnil]
  · intro hforeign p ao hao
    have hnil : BaseViewSet.queryset_for db.ingredients db.recipes
        Recipe.ingredients u ao = [] :=
      List.eq_nil_iff_forall_not_mem.mpr (fun t ht =>
        hforeign t (mem_queryset_for.1 ht).1 (mem_queryset_for.1 ht).2.1)
    rw [show IngredientViewSet.get_queryset db u p =
      BaseViewSet.get_queryset db.ingredients db.recipes Recipe.ingredients
        u p from rfl,
      base_get_queryset_eq hao, hnil]
  · intro hforeign
    constructor
    · have hnil : db.recipes.filter (fun r => r.user == u) = [] :=
        List.filter_eq_nil_iff.mpr (fun r hr => by
          simpa [beq_iff_eq] using hforeign r hr)
      simp only [RecipeViewSet.get_queryset, applyIdFilter_none, hnil]
    · intro tp ip l h
      exact List.eq_nil_iff_forall_not_mem.mpr (fun r hrl =>
        hforeign r (recipe_get_queryset_some h r hrl).1
          (recipe_get_queryset_some h r hrl).2)

/-- Witness for C1 at a concrete database: user 3 owns nothing in `db0`, and
each list endpoint yields an empty result, not an error. -/
theorem C1_owner_scoped_listing_witness :
    TagViewSet.get_queryset db0 3 none = some [] ∧
    IngredientViewSet.get_queryset db0 3 none = some [] ∧
    RecipeViewSet.get_queryset db0 3 none none = some [] := by
  obtain ⟨-, -, -, h4, h5, h6⟩ := C1_owner_scoped_listing db0 3
  exact ⟨h4 (by decide) none false rfl, h5 (by decide) none false rfl,
    (h6 (by decide)).1⟩

/-- C2: with a truthy `assigned_only` parameter, the tag and ingredient lists
are exactly the requesting user's records referenced by at least one recipe,
each appearing exactly once even when referenced by several recipes. -/
theorem C2_assigned_only_exact (db : DB) (u : Nat) (s : String) (n : Int)
    (hs : pyInt s = some n) (hn : n ≠ 0) :
    (∃ l, TagViewSet.get_queryset db u (some s) = some l ∧ l.Nodup ∧
      (∀ t, t ∈ l ↔
        t ∈ db.tags ∧ t.user = u ∧ ∃ r ∈ db.recipes, t.id ∈ r.tags) ∧
      ∀ t ∈ l, l.count t = 1) ∧
    (∃ l, IngredientViewSet.get_queryset db u (some s) = some l ∧ l.Nodup ∧
      (∀ t, t ∈ l ↔ t ∈ db.ingredients ∧ t.user = u ∧
        ∃ r ∈ db.recipes, t.id ∈ r.ingredients) ∧
      ∀ t ∈ l, l.count t = 1) := by
  have hao : BaseViewSet.parseAssignedOnly (some s) = some true := by
    simp [BaseViewSet.parseAssignedOnly, hs, hn]
  constructor
  · refine ⟨_, base_get_queryset_eq hao, nodup_queryset_for, ?_, ?_⟩
    · intro t
      simp [mem_queryset_for]
    · intro t ht
      exact List.count_eq_one_of_mem nodup_queryset_for ht
  · refine ⟨_, base_get_queryset_eq hao, nodup_queryset_for, ?_, ?_⟩
    · intro t
      simp [mem_queryset_for]
    · intro t ht
      exact List.count_eq_one_of_mem nodup_queryset_for ht

/-- Witness for C2: `assigned_only=1` on `db0` for user 1. -/
theorem C2_assigned_only_exact_witness :
    ∃ l, TagViewSet.get_queryset db0 1 (some "1") = some l ∧ l.Nodup ∧
      (∀ t, t ∈ l ↔
        t ∈ db0.tags ∧ t.user = 1 ∧ ∃ r ∈ db0.recipes, t.id ∈ r.tags) ∧
      ∀ t ∈ l, l.count t = 1 :=
  (C2_assigned_only_exact db0 1 "1" 1 (by decide) (by decide)).1

/-- C3: filtering the recipe list by a comma-separated id list keeps exactly
the requesting user's recipes having at least one tag (resp. ingredient)
among the given ids — OR semantics across the ids, not AND. -/
theorem C3_or_semantics (db : DB) (u : Nat) (s : String) (ids : List Int)
    (hs : s ≠ "") (hids : RecipeViewSet._params_to_ints s = some ids) :
    (∃ l, RecipeViewSet.get_queryset db u (some s) none = some l ∧
      ∀ r, r ∈ l ↔ r ∈ db.recipes ∧ r.user = u ∧ ∃ t ∈ r.tags, t ∈ ids) ∧
    (∃ l, RecipeViewSet.get_queryset db u none (some s) = some l ∧
      ∀ r, r ∈ l ↔
        r ∈ db.recipes ∧ r.user = u ∧ ∃ t ∈ r.ingredients, t ∈ ids) := by
  constructor
  · refine ⟨(RecipeViewSet.filterByIds db.recipes Recipe.tags ids).filter
      (fun r => r.user == u), ?_, ?_⟩
    · simp only [RecipeViewSet.get_queryset, applyIdFilter_none,
        applyIdFilter_param hs hids]
    · intro r
      simp only [List.mem_filter, mem_filterByIds, beq_iff_eq]
      tauto
  · refine ⟨(RecipeViewSet.filterByIds db.recipes Recipe.ingredients
      ids).filter (fun r => r.user == u), ?_, ?_⟩
    · simp only [RecipeViewSet.get_queryset, applyIdFilter_none,
        applyIdFilter_param hs hids]
    · intro r
      simp only [List.mem_filter, mem_filterByIds, beq_iff_eq]
      tauto

/-- Witness for C3: `tags=1,2` on `db0` for user 1. -/
theorem C3_or_semantics_witness :
    ∃ l, RecipeViewSet.get_queryset db0 1 (some "1,2") none = some l ∧
      ∀ r, r ∈ l ↔
        r ∈ db0.recipes ∧ r.user = 1 ∧ ∃ t ∈ r.tags, t ∈ ([1, 2] : List Int) :=
  (C3_or_semantics db0 1 "1,2" [1, 2] (by decide) (by decide)).1

/-- C7: without `assigned_only`, the tag and ingredient lists contain exactly
the requesting user's records, ordered by name descending, with no record
appearing more than once. -/
theorem C7_unfiltered_list_sorted (db : DB) (u : Nat) :
    (∃ l, TagViewSet.get_queryset db u none = some l ∧
      List.Sorted nameDesc l ∧ l.Nodup ∧
      ∀ t, t ∈ l ↔ t ∈ db.tags ∧ t.user = u) ∧
    (∃ l, IngredientViewSet.get_queryset db u none = some l ∧
      List.Sorted nameDesc l ∧ l.Nodup ∧
      ∀ t, t ∈ l ↔ t ∈ db.ingredients ∧ t.user = u) := by
  have hao : BaseViewSet.parseAssignedOnly none = some false := rfl
  constructor
  · refine ⟨_, base_get_queryset_eq hao, sorted_queryset_for,
      nodup_queryset_for, ?_⟩
    intro t
    simp [mem_queryset_for]
  · refine ⟨_, base_get_queryset_eq hao, sorted_queryset_for,
      nodup_queryset_for, ?_⟩
    intro t
    simp [mem_queryset_for]

/-- C9: the filtered recipe list applies no `distinct()`: a recipe owned by
the user and stored once appears once per tag (resp. ingredient) association
matching the given id set. -/
theorem C9_filter_join_multiplicity (db : DB) (u : Nat) (s : String)
    (ids : List Int) (r : Recipe) (hs : s ≠ "")
    (hids : RecipeViewSet._params_to_ints s = some ids)
    (hone : db.recipes.count r = 1) (hu : r.user = u) :
    (∃ l, RecipeViewSet.get_queryset db u (some s) none = some l ∧
      l.count r = (r.tags.filter (fun t => ids.contains t)).length) ∧
    (∃ l, RecipeViewSet.get_queryset db u none (some s) = some l ∧
      l.count r =
        (r.ingredients.filter (fun t => ids.contains t)).length) := by
  have hbeq : (r.user == u) = true := by simp [hu]
  constructor
  · refine ⟨(RecipeViewSet.filterByIds db.recipes Recipe.tags ids).filter
      (fun x => x.user == u), ?_, ?_⟩
    · simp only [RecipeViewSet.get_queryset, applyIdFilter_none,
        applyIdFilter_param hs hids]
    · rw [List.count_filter (p := fun x => x.user == u) (a := r) hbeq,
        count_filterByIds, hone, one_mul]
  · refine ⟨(RecipeViewSet.filterByIds db.recipes Recipe.ingredients
      ids).filter (fun x => x.user == u), ?_, ?_⟩
    · simp only [RecipeViewSet.get_queryset, applyIdFilter_none,
        applyIdFilter_param hs hids]
    · rw [List.count_filter (p := fun x => x.user == u) (a := r) hbeq,
        count_filterByIds, hone, one_mul]

/-- Witness for C9: `recRisotto` has both tags 1 and 2, so under `tags=1,2`
it appears once per matching association. -/
theorem C9_filter_join_multiplicity_witness :
    ∃ l, RecipeViewSet.get_queryset db0 1 (some "1,2") none = some l ∧
      l.count recRisotto =
        (recRisotto.tags.filter
          (fun t => ([1, 2] : List Int).contains t)).length :=
  (C9_filter_join_multiplicity db0 1 "1,2" [1, 2] recRisotto (by decide)
    (by decide) (by decide) (by decide)).1

/-- C10: query-parameter parsing is partial: a non-integer `assigned_only`
value or a non-integer token in `tags`/`ingredients` makes `int()` raise an
unhandled exception (modelled `none`), not a 400 response. -/
theorem C10_malformed_params_raise (db : DB) (u : Nat) :
    pyInt "true" = none ∧
    RecipeViewSet._params_to_ints "a,2" = none ∧
    TagViewSet.get_queryset db u (some "true") = none ∧
    IngredientViewSet.get_queryset db u (some "true") = none ∧
    RecipeViewSet.get_queryset db u (some "a,2") none = none ∧
    RecipeViewSet.get_queryset db u none (some "a,2") = none ∧
    TagViewSet.list_view db (some u) (some "true") = none ∧
    RecipeViewSet.list_view db (some u) (some "a,2") none = none := by
  have h1 : BaseViewSet.parseAssignedOnly (some "true") = none := by decide
  have h2 : RecipeViewSet.applyIdFilter (some "a,2") Recipe.tags db.recipes
      = none :=
    applyIdFilter_raises (by decide) (by decide)
  have h3 : RecipeViewSet.applyIdFilter (some "a,2") Recipe.ingredients
      db.recipes = none :=
    applyIdFilter_raises (by decide) (by decide)
  refine ⟨by decide, by decide, ?_, ?_, ?_, ?_, ?_, ?_⟩
  · simp [TagViewSet.get_queryset, BaseViewSet.get_queryset, h1]
  · simp [IngredientViewSet.get_queryset, BaseViewSet.get_queryset, h1]
  · simp [RecipeViewSet.get_queryset, h2]
  · simp [RecipeViewSet.get_queryset, applyIdFilter_none, h3]
  · simp [TagViewSet.list_view, listEndpoint, TagViewSet.get_queryset,
      BaseViewSet.get_queryset, h1]
  · simp [RecipeViewSet.list_view, listEndpoint, RecipeViewSet.get_queryset,
      h2]

lemma get_object_mem {db : DB} {u : Nat} {pk : Int} {r : Recipe}
    (h : RecipeViewSet.get_object db u pk = some r) :
    r ∈ db.recipes ∧ r.user = u := by
  have h' : (db.recipes.filter (fun x => x.user == u)).find?
      (fun x => x.id == pk) = some r := h
  have hm := List.mem_of_find?_eq_some h'
  rw [List.mem_filter, beq_iff_eq] at hm
  exact hm

lemma save_preserves_users {db : DB} {r r' : Recipe} (hmem : r ∈ db.recipes)
    (hid : r'.id = r.id) (huser : r'.user = r.user)
    (hids : (db.recipes.map Recipe.id).Nodup) :
    (RecipeViewSet.saveRecipe db r').recipes.map Recipe.user =
      db.recipes.map Recipe.user := by
  show (db.recipes.map (fun x => if x.id == r'.id then r' else x)).map
    Recipe.user = db.recipes.map Recipe.user
  rw [List.map_map]
  apply List.map_congr_left
  intro x hx
  by_cases hxi : x.id = r'.id
  · have hxr : x = r :=
      List.inj_on_of_nodup_map hids hx hmem (by rw [hxi, hid])
    subst hxr
    simp [Function.comp, hid, huser]
  · simp [Function.comp, hxi]

/-- C4: an unauthenticated request to any list or create endpoint of the
tags, ingredients or recipes API is answered 401 and the operation is not
executed: no rows are returned and the database is unchanged. -/
theorem C4_unauthenticated_401 (db : DB) (p tp ip : Option String)
    (name : String) (pu : Option Nat) (nid : Int)
    (rp : RecipeViewSet.RecipePayload) :
    TagViewSet.list_view db none p = some ⟨401, none⟩ ∧
    IngredientViewSet.list_view db none p = some ⟨401, none⟩ ∧
    RecipeViewSet.list_view db none tp ip = some ⟨401, none⟩ ∧
    TagViewSet.create_view db none name pu nid = (⟨401, none⟩, db) ∧
    IngredientViewSet.create_view db none name pu nid = (⟨401, none⟩, db) ∧
    RecipeViewSet.create_view db none rp nid = (⟨401, none⟩, db) :=
  ⟨rfl, rfl, rfl, rfl, rfl, rfl⟩

/-- C5: an authenticated create on the tag or ingredient endpoint with a
non-empty name answers 201 and appends a record owned by the requesting user
— the owner is assigned by the server whatever user value the payload holds —
while an empty name answers 400 and stores nothing. -/
theorem C5_create_validation_and_owner (db : DB) (u : Nat) (name : String)
    (pu : Option Nat) (nid : Int) :
    (name ≠ "" →
      TagViewSet.create_view db (some u) name pu nid =
        (⟨201, some ⟨nid, name, u⟩⟩,
          { db with tags := db.tags ++ [⟨nid, name, u⟩] }) ∧
      IngredientViewSet.create_view db (some u) name pu nid =
        (⟨201, some ⟨nid, name, u⟩⟩,
          { db with ingredients := db.ingredients ++ [⟨nid, name, u⟩] })) ∧
    (name = "" →
      TagViewSet.create_view db (some u) name pu nid = (⟨400, none⟩, db) ∧
      IngredientViewSet.create_view db (some u) name pu nid =
        (⟨400, none⟩, db)) := by
  constructor
  · intro h
    constructor
    · simp [TagViewSet.create_view, BaseViewSet.create, h]
    · simp [IngredientViewSet.create_view, BaseViewSet.create, h]
  · intro h
    subst h
    exact ⟨rfl, rfl⟩

/-- Witness for C5: creating a tag named `Vegan` as user 1 (with a foreign
user id smuggled into the payload), and one with an empty name. -/
theorem C5_create_validation_and_owner_witness :
    TagViewSet.create_view db0 (some 1) "Vegan" (some 99) 7 =
      (⟨201, some ⟨7, "Vegan", 1⟩⟩,
        { db0 with tags := db0.tags ++ [⟨7, "Vegan", 1⟩] }) ∧
    TagViewSet.create_view db0 (some 1) "" (some 99) 7 = (⟨400, none⟩, db0) :=
  ⟨((C5_create_validation_and_owner db0 1 "Vegan" (some 99) 7).1
      (by decide)).1,
    ((C5_create_validation_and_owner db0 1 "" (some 99) 7).2 rfl).1⟩

/-- C6: a POST to upload-image on an owned recipe with a decodable image
answers 200 with the updated record and persists the image onto the stored
recipe; a non-image payload answers 400 and leaves the database unchanged. -/
theorem C6_upload_image_validation (db : DB) (u : Nat) (pk : Int)
    (r : Recipe) (d : String)
    (h : RecipeViewSet.get_object db u pk = some r) :
    (RecipeViewSet.upload_image db (some u) pk (.image d)).1 =
      ⟨200, some { r with image := some (RecipeViewSet.storagePath d) }⟩ ∧
    { r with image := some (RecipeViewSet.storagePath d) } ∈
      (RecipeViewSet.upload_image db (some u) pk (.image d)).2.recipes ∧
    RecipeViewSet.upload_image db (some u) pk (.notImage d) =
      (⟨400, none⟩, db) := by
  obtain ⟨hmem, -⟩ := get_object_mem h
  refine ⟨?_, ?_, ?_⟩
  · simp [RecipeViewSet.upload_image, h]
  · have e : (RecipeViewSet.upload_image db (some u) pk (.image d)).2 =
        RecipeViewSet.saveRecipe db
          { r with image := some (RecipeViewSet.storagePath d) } := by
      simp [RecipeViewSet.upload_image, h]
    rw [e]
    show _ ∈ db.recipes.map _
    rw [List.mem_map]
    exact ⟨r, hmem, by simp⟩
  · simp [RecipeViewSet.upload_image, h]

/-- Witness for C6: uploading to the owned recipe `recBorsch` in `db0`. -/
theorem C6_upload_image_validation_witness :
    (RecipeViewSet.upload_image db0 (some 1) 10
        (.image "pic.jpg")).1 =
      ⟨200, some { recBorsch with
        image := some (RecipeViewSet.storagePath "pic.jpg") }⟩ ∧
    { recBorsch with image := some (RecipeViewSet.storagePath "pic.jpg") } ∈
      (RecipeViewSet.upload_image db0 (some 1) 10
        (.image "pic.jpg")).2.recipes ∧
    RecipeViewSet.upload_image db0 (some 1) 10 (.notImage "pic.jpg") =
      (⟨400, none⟩, db0) :=
  C6_upload_image_validation db0 1 10 recBorsch "pic.jpg" (by decide)

/-- C8: the recipe owner is set to the requesting user at creation and no
update — full or partial, whatever the payload carries, including a user
value — changes any stored owner. -/
theorem C8_owner_immutable (db : DB) (auth : Option Nat) (pk : Int)
    (p : RecipeViewSet.RecipeUpdatePayload)
    (hids : (db.recipes.map Recipe.id).Nodup) :
    (RecipeViewSet.update_view db auth pk p).2.recipes.map Recipe.user =
      db.recipes.map Recipe.user ∧
    (∀ row, (RecipeViewSet.update_view db auth pk p).1.body = some row →
      ∃ r0 ∈ db.recipes, row.user = r0.user ∧ row.id = r0.id) ∧
    (∀ u rp nid row,
      (RecipeViewSet.create_view db (some u) rp nid).1.body = some row →
      row.user = u) := by
  refine ⟨?_, ?_, ?_⟩
  · cases auth with
    | none => rfl
    | some u =>
      cases hobj : RecipeViewSet.get_object db u pk with
      | none => simp [RecipeViewSet.update_view, hobj]
      | some r =>
        have e : (RecipeViewSet.update_view db (some u) pk p).2 =
            RecipeViewSet.saveRecipe db (RecipeViewSet.serializer_update r p)
            := by
          simp [RecipeViewSet.update_view, hobj]
        rw [e]
        exact save_preserves_users (get_object_mem hobj).1 rfl rfl hids
  · intro row hrow
    cases auth with
    | none => cases hrow
    | some u =>
      cases hobj : RecipeViewSet.get_object db u pk with
      | none => simp [RecipeViewSet.update_view, hobj] at hrow
      | some r =>
        have e : (RecipeViewSet.update_view db (some u) pk p).1.body =
            some (RecipeViewSet.serializer_update r p) := by
          simp [RecipeViewSet.update_view, hobj]
        rw [e] at hrow
        cases hrow
        exact ⟨r, (get_object_mem hobj).1, rfl, rfl⟩
  · intro u rp nid row hrow
    by_cases ht : rp.title = ""
    · simp [RecipeViewSet.create_view, ht] at hrow
    · simp [RecipeViewSet.create_view, ht] at hrow
      rw [← hrow]

/-- Witness for C8: a PATCH on `db0` whose payload tries to set the owner to
user 99 leaves every stored owner unchanged, and a create as user 1 stores
owner 1. -/
theorem C8_owner_immutable_witness :
    (RecipeViewSet.update_view db0 (some 1) 10
        ⟨some "Hacked", none, none, none, none, some 99⟩).2.recipes.map
      Recipe.user = db0.recipes.map Recipe.user ∧
    ∀ row, (RecipeViewSet.create_view db0 (some 1)
        ⟨"Pie", 5, 3, [], [], some 99⟩ 12).1.body = some row →
      row.user = 1 := by
  obtain ⟨h1, -, h3⟩ := C8_owner_immutable db0 (some 1) 10
    ⟨some "Hacked", none, none, none, none, some 99⟩ (by decide)
  exact ⟨h1, h3 1 ⟨"Pie", 5, 3, [], [], some 99⟩ 12⟩
